import Mathlib

/-!
# vault-init: the root command of `cmd/root.go`

A shallow embedding of `cmd/root.go`.  Every interaction with the outside
(environment variables, the health probe, the init request, AWS, the file
system, the signal channel) is an oracle field of `World`; the functions of
the source become pure functions from those oracles to the list of events
the process performs and the way control leaves it.

The unbounded `for` loop of `healthCheck` consumes one `PollStep` per
iteration, so a finite list of steps plays the part of fuel: a loop that has
not ended when the list is used up is reported as `Outcome.polling`.

The main goroutine is `rootCmdRun`; `rootCmdRunWithSignal` adds the goroutine
`handleSig`, which the source starts only after `healthCheck` has returned.
-/

namespace VaultInit

/-! ## Data model -/

/-- A Go byte slice. -/
abbrev Bytes := List UInt8

/-- The environment variables the command reads with `os.Getenv`
(an unset variable reads as the empty string). -/
structure Env where
  VAULT_ADDR : String
  CHECK_INTERVAL : String
  AWS_REGION : String
  AWS_ACCOUNT_NUMBER : String
  AWS_KMS_KEY_ID : String
  deriving DecidableEq, Repr

/-- The struct `InitPayload`: a Vault init request. -/
structure InitPayload where
  RecoveryShares : Int
  RecoveryThreshold : Int
  SecretShares : Int
  SecretThreshold : Int
  deriving DecidableEq, Repr

/-- The struct `InitResponse`: a Vault init response.  A field absent from
the JSON body keeps the Go zero value (`""` for `RootToken`). -/
structure InitResponse where
  Keys : List String
  KeysBase64 : List String
  RootToken : String
  RecoveryKeys : List String
  RecoveryKeysBase64 : List String
  deriving DecidableEq, Repr

/-- What the process does to the outside world, in program order. -/
inductive Event where
  /-- One `fmt.Println` call with its operands. -/
  | println (operands : List String)
  /-- One `log.Println` or `log.Printf` call with its rendered line. -/
  | log (line : String)
  /-- One `httpClient.Head` call. -/
  | head (url : String)
  /-- One `time.Sleep` call, the duration in nanoseconds. -/
  | sleep (nanos : Int)
  /-- The statement `go handleSig()`. -/
  | goHandleSig
  /-- One call of `initVault`. -/
  | initVault (vaultAddr : String)
  /-- One `httpClient.Do` call with the PUT request of `initVault`. -/
  | put (url : String) (body : InitPayload)
  /-- The call `session.NewSession`. -/
  | newSession (region : String)
  /-- One `kmsClient.Encrypt` call. -/
  | encrypt (KeyId : String) (Plaintext : Bytes)
  /-- The call `os.Hostname`. -/
  | hostname
  /-- One `ioutil.WriteFile` call. -/
  | writeFile (filename : String) (content : Bytes)
  /-- One `os.Open` call. -/
  | openFile (filename : String)
  /-- One `uploader.Upload` call. -/
  | upload (Bucket : String) (Key : String) (Body : Bytes)
  deriving DecidableEq, Repr

/-- How control leaves the main goroutine without returning to its caller. -/
inductive Outcome where
  /-- The poll loop is still running: the probe oracle is used up. -/
  | polling
  /-- The call `os.Exit code`. -/
  | exit (code : Nat)
  /-- A Go panic that nothing recovers. -/
  | panic (msg : String)
  /-- Blocked on `<-exit`, waiting for the signal handler. -/
  | dormant
  deriving DecidableEq, Repr

/-- The exit status of the process: a panic that reaches the top of the
goroutine ends the Go process with status 2. -/
def Outcome.exitCode : Outcome → Option Nat
  | .exit code => some code
  | .panic _ => some 2
  | .polling => none
  | .dormant => none

/-- A function call either returns a value or never returns. -/
inductive Ret (α : Type) where
  | ok (value : α)
  | halt (how : Outcome)
  deriving DecidableEq, Repr

/-- The result of one `httpClient.Head` call: a transport error or a
response with its status code. -/
inductive HeadResult where
  | err (msg : String)
  | resp (StatusCode : Int)
  deriving DecidableEq, Repr

/-- One iteration of the poll loop as the outside world decides it: whether
a signal is waiting in `sigChannel` when the `select` runs, and what the
probe made in that iteration gives. -/
structure PollStep where
  sigPending : Bool
  head : HeadResult
  deriving DecidableEq, Repr

/-- What the outside world answers to the calls made inside `initVault`. -/
structure InitExchange where
  /-- The error of `http.NewRequest`, if any. -/
  errR : Option String
  /-- The error of `httpClient.Do`, if any. -/
  errReq : Option String
  /-- The error of `ioutil.ReadAll`, if any. -/
  errResp : Option String
  /-- The field `response.StatusCode`. -/
  StatusCode : Int
  /-- The result of `json.Unmarshal` on the response body. -/
  unmarshal : Except String InitResponse

/-- Everything the outside world decides in one run. -/
structure World where
  env : Env
  polls : List PollStep
  init : InitExchange
  /-- The error of `session.NewSession`, if any. -/
  sessionErr : Option String
  /-- The result of `kmsClient.Encrypt`: an error or the ciphertext blob. -/
  encrypt : Except String Bytes
  /-- The result of `os.Hostname`. -/
  hostname : Except String String
  /-- The error of `ioutil.WriteFile`, if any. -/
  writeErr : Option String
  /-- The error of `os.Open`, if any. -/
  openErr : Option String
  /-- The result of `uploader.Upload`: an error or the field `Location`. -/
  upload : Except String String

/-! ## Go library functions the source calls -/

/-- The `%s` verb of `fmt.Sprintf` over string operands. -/
def sprintfAux : List Char → List String → List Char
  | '%' :: 's' :: rest, a :: args => a.data ++ sprintfAux rest args
  | '%' :: 's' :: rest, [] => "%!s(MISSING)".data ++ sprintfAux rest []
  | c :: rest, args => c :: sprintfAux rest args
  | [], _ => []

/-- The function `fmt.Sprintf` for formats that use only `%s`. -/
def Sprintf (format : String) (args : List String) : String :=
  ⟨sprintfAux format.data args⟩

/-- The value of a decimal digit. -/
def digitVal (c : Char) : Option Nat :=
  if 48 ≤ c.toNat ∧ c.toNat ≤ 57 then some (c.toNat - 48) else none

/-- A run of decimal digits read left to right. -/
def parseDigits : List Char → Nat → Option Nat
  | [], acc => some acc
  | c :: cs, acc =>
    match digitVal c with
    | some d => parseDigits cs (acc * 10 + d)
    | none => none

/-- The function `strconv.Atoi`: an optional sign, then at least one decimal
digit, the value within the 64-bit `int`; anything else is an error.  The
integer returned is that of Go; the text of the error only approximates the
Go message. -/
def Atoi (s : String) : Except String Int :=
  let signed : Bool × List Char :=
    match s.data with
    | '-' :: ds => (true, ds)
    | '+' :: ds => (false, ds)
    | ds => (false, ds)
  if signed.2 = [] then
    .error ("strconv.Atoi: parsing " ++ s.quote ++ ": invalid syntax")
  else
    match parseDigits signed.2 0 with
    | none => .error ("strconv.Atoi: parsing " ++ s.quote ++ ": invalid syntax")
    | some n =>
      let v : Int := if signed.1 then -(n : Int) else (n : Int)
      if -9223372036854775808 ≤ v ∧ v ≤ 9223372036854775807 then .ok v
      else .error ("strconv.Atoi: parsing " ++ s.quote ++ ": value out of range")

/-- A mathematical integer reduced to the Go type `int64` (two's complement). -/
def wrapInt64 (x : Int) : Int :=
  (x + 9223372036854775808) % 18446744073709551616 - 9223372036854775808

/-- The constant `time.Second`, in nanoseconds. -/
def Second : Int := 1000000000

/-- The Go conversion `string(i)` of an integer: the string holding the one
code point `i`, or U+FFFD when `i` is no valid code point. -/
def goString (i : Int) : String :=
  if 0 ≤ i ∧ Nat.isValidChar i.toNat then String.singleton (Char.ofNat i.toNat)
  else String.singleton (Char.ofNat 65533)

/-- The Go conversion of a string to `[]byte`: its UTF-8 encoding. -/
def goBytes (s : String) : Bytes :=
  s.data.flatMap String.utf8EncodeChar

/-- The `%d` verb of `log.Printf`: the decimal digits of an integer. -/
def decimal (i : Int) : String := toString i

/-! ## The functions of `cmd/root.go` -/

/-- The function `fullKeyID`. -/
def fullKeyID (accountID : String) (keyID : String) (region : String) : String :=
  let baseString := Sprintf "arn:aws:kms:%s:%s:key/%s" [region, accountID, keyID]
  baseString

/-- The lines that both shutdown paths print before `os.Exit(0)`. -/
def shuttingDown : List Event :=
  [.println [], .println ["Shutting down..."]]

/-- The `for` loop of `healthCheck`, one `PollStep` per iteration. -/
def healthLoop (vaultAddr : String) (checkWaitTime : Int) :
    List PollStep → List Event × Ret Int
  | [] => ([], .halt .polling)
  | s :: rest =>
    if s.sigPending then
      (shuttingDown, .halt (.exit 0))
    else
      match s.head with
      | .err healthErr =>
        let later := healthLoop vaultAddr checkWaitTime rest
        (.head (vaultAddr ++ "/v1/sys/health") :: .log healthErr ::
          .println ["Sleeping"] :: .sleep checkWaitTime ::
          .println ["trying again"] :: later.1, later.2)
      | .resp StatusCode =>
        ([.head (vaultAddr ++ "/v1/sys/health")], .ok StatusCode)

/-- The string `checkInterval` of `healthCheck`. -/
def checkInterval (env : Env) : String :=
  if env.CHECK_INTERVAL = "" then "10" else env.CHECK_INTERVAL

/-- The function `healthCheck`. -/
def healthCheck (env : Env) (vaultAddr : String) (polls : List PollStep) :
    List Event × Ret Int :=
  match Atoi (checkInterval env) with
  | .error strConfErr => ([], .halt (.panic strConfErr))
  | .ok checkIntervalNumber =>
    let checkWaitTime := wrapInt64 (checkIntervalNumber * Second)
    healthLoop vaultAddr checkWaitTime polls

/-- The `switch healthCode` of the root command: the line the chosen arm
logs, and the value the arm leaves in the variable `intitialise`. -/
def healthSwitch (healthCode : Int) : String × Bool :=
  if healthCode = 200 then
    ("Vault is initialised and unsealed. Going dormant...", false)
  else if healthCode = 429 then
    ("Vault is unsealed and in standby mode. Going dormant...", false)
  else if healthCode = 501 then
    ("Vault is not initialised. Initialising...", true)
  else if healthCode = 503 then
    ("Vault is initialised, but still sealed. Use the tokens received after " ++
      "last initialisation to unseal. Going dormant...", false)
  else
    ("Vault is in an unknown state. Health status code: " ++ decimal healthCode ++
      ". Going dormant...", false)

/-- The local variable `initRequest` of `initVault`. -/
def initRequest : InitPayload :=
  { RecoveryShares := 1
    RecoveryThreshold := 1
    SecretShares := 5
    SecretThreshold := 3 }

/-- The function `initVault`.  (`json.Marshal` cannot fail on a struct of
four integers, so `errMash` is always nil.) -/
def initVault (vaultAddr : String) (x : InitExchange) : List Event × Ret String :=
  match x.errR with
  | some errR => ([.initVault vaultAddr], .halt (.panic errR))
  | none =>
    let sent : List Event :=
      [.initVault vaultAddr, .put (vaultAddr ++ "/v1/sys/init") initRequest]
    match x.errReq with
    | some errReq => (sent, .halt (.panic errReq))
    | none =>
      match x.errResp with
      | some errResp => (sent, .halt (.panic errResp))
      | none =>
        if x.StatusCode ≠ 200 then
          (sent ++ [.log ("init: non 200 status code: " ++ decimal x.StatusCode)],
            .ok (goString x.StatusCode))
        else
          match x.unmarshal with
          | .error errUn => (sent ++ [.log errUn], .halt (.panic errUn))
          | .ok initResponse => (sent, .ok initResponse.RootToken)

/-- Lines 115 to 149 of the root command: the AWS setup, the encryption of
the root token, the token file and its upload.  The body uploaded is the file
just written, so it holds the ciphertext blob. -/
def handoff (w : World) (rootToken : String) : List Event × Outcome :=
  let region := w.env.AWS_REGION
  match w.sessionErr with
  | some errSess => ([.newSession region], .panic errSess)
  | none =>
    let toEncrypt : List Event :=
      [.newSession region, .println ["Encrypting root token..."],
        .encrypt (fullKeyID w.env.AWS_ACCOUNT_NUMBER w.env.AWS_KMS_KEY_ID region)
          (goBytes rootToken)]
    match w.encrypt with
    | .error errE => (toEncrypt, .panic errE)
    | .ok CiphertextBlob =>
      let toHostname := toEncrypt ++ [.println ["Encryption complete."], .hostname]
      match w.hostname with
      | .error errH => (toHostname, .panic errH)
      | .ok hostname =>
        let tokenFileName := hostname ++ "_token"
        let toWrite := toHostname ++ [.writeFile tokenFileName CiphertextBlob]
        match w.writeErr with
        | some errW => (toWrite, .panic errW)
        | none =>
          let toOpen := toWrite ++
            [.println ["Uploading encrypted token to S3..."], .openFile tokenFileName]
          match w.openErr with
          | some errF => (toOpen, .panic errF)
          | none =>
            let toUpload := toOpen ++
              [.upload "encrypted-tokens" tokenFileName CiphertextBlob]
            match w.upload with
            | .error errS3 => (toUpload, .panic errS3)
            | .ok Location =>
              (toUpload ++
                [.println ["Encrypted token successfully uploaded to S3 at", Location]],
                .dormant)

/-- Lines 93 to 152 of the root command, as the main goroutine runs them
once `healthCheck` has returned `healthCode`. -/
def afterHealthCheck (w : World) (vaultAddr : String) (healthCode : Int) :
    List Event × Outcome :=
  let arm := healthSwitch healthCode
  let intitialise := arm.2
  if intitialise then
    let called := initVault vaultAddr w.init
    match called.2 with
    | .halt how =>
      (.goHandleSig :: .log arm.1 :: .println ["Initialising Vault..."] :: called.1, how)
    | .ok rootToken =>
      let rest := handoff w rootToken
      (.goHandleSig :: .log arm.1 :: .println ["Initialising Vault..."] :: called.1 ++
        .println ["Initialisation complete"] :: rest.1, rest.2)
  else
    ([.goHandleSig, .log arm.1], .dormant)

/-- The variable `vaultAddr` of the root command. -/
def vaultAddrOf (env : Env) : String :=
  if env.VAULT_ADDR = "" then "http://127.0.0.1:8200" else env.VAULT_ADDR

/-- The `Run` function of `rootCmd` as the main goroutine executes it, when
no signal reaches the handler goroutine. -/
def rootCmdRun (w : World) : List Event × Outcome :=
  match healthCheck w.env (vaultAddrOf w.env) w.polls with
  | (polled, .halt how) => (polled, how)
  | (polled, .ok healthCode) =>
    let rest := afterHealthCheck w (vaultAddrOf w.env) healthCode
    (polled ++ rest.1, rest.2)

/-- The goroutine `handleSig` racing the main goroutine `main`, whose first
event is `go handleSig()`: the handler receives the signal, prints and calls
`os.Exit(0)` after the main goroutine has performed `exitAfter` further
events, unless the main goroutine has panicked before. -/
def handleSig (main : List Event × Outcome) (exitAfter : Nat) : List Event × Outcome :=
  if main.2 = .dormant ∨ exitAfter + 1 < main.1.length then
    (main.1.take (exitAfter + 1) ++ shuttingDown, .exit 0)
  else
    main

/-- The `Run` function of `rootCmd` with its handler goroutine: `handler` is
`none` when no signal is left for `handleSig` to receive, and `some n` when
the handler exits the process after `n` further events of the main
goroutine. -/
def rootCmdRunWithSignal (w : World) (handler : Option Nat) : List Event × Outcome :=
  match healthCheck w.env (vaultAddrOf w.env) w.polls with
  | (polled, .halt how) => (polled, how)
  | (polled, .ok healthCode) =>
    let main := afterHealthCheck w (vaultAddrOf w.env) healthCode
    match handler with
    | none => (polled ++ main.1, main.2)
    | some exitAfter =>
      let raced := handleSig main exitAfter
      (polled ++ raced.1, raced.2)

/-! ## Observations on a run -/

/-- The event is a call of `initVault`. -/
def Event.isInitVault : Event → Bool
  | .initVault _ => true
  | _ => false

/-- The event is a probe, a call of `httpClient.Head`. -/
def Event.isHead : Event → Bool
  | .head _ => true
  | _ => false

/-- The duration of a `time.Sleep` call. -/
def Event.sleepNanos : Event → Option Int
  | .sleep nanos => some nanos
  | _ => none

/-- The event is a call of `kmsClient.Encrypt`. -/
def Event.isEncrypt : Event → Bool
  | .encrypt _ _ => true
  | _ => false

/-- The event is a call of `uploader.Upload`. -/
def Event.isUpload : Event → Bool
  | .upload _ _ _ => true
  | _ => false

/-- The event is the success report of line 149. -/
def Event.isSuccessReport : Event → Bool
  | .println (first :: _) => first == "Encrypted token successfully uploaded to S3 at"
  | _ => false

/-! ## Concrete runs -/

/-- An environment with the address and the interval unset. -/
def sampleEnv : Env :=
  ⟨"", "", "eu-west-1", "123456789012", "key-1"⟩

/-- The same environment with CHECK_INTERVAL set to one second. -/
def everySecondEnv : Env :=
  ⟨"", "1", "eu-west-1", "123456789012", "key-1"⟩

/-- An init exchange answered with status 200 and the given root token. -/
def initAnswer (rootToken : String) : InitExchange :=
  ⟨none, none, none, 200, .ok ⟨[], [], rootToken, [], []⟩⟩

/-- An init exchange answered with a status other than 200; the body is
never parsed, so the unmarshal oracle is not consulted. -/
def initRefused (StatusCode : Int) : InitExchange :=
  ⟨none, none, none, StatusCode, .error "unexpected end of JSON input"⟩

/-- A world in which AWS, the host name and the file system all work. -/
def sampleWorld (polls : List PollStep) (init : InitExchange) : World :=
  ⟨sampleEnv, polls, init, none, .ok [1, 2, 3], .ok "host", none, none,
    .ok "https://encrypted-tokens.s3.amazonaws.com/host_token"⟩

/-! ## The classification table of the specification -/

/-- The lifecycle states the specification names. -/
inductive LifecycleState where
  | Ready
  | Standby
  | Uninitialized
  | Sealed
  | Unknown
  deriving DecidableEq, Repr

/-- The classification as the specification words it: 200 is Ready, 429 is
Standby, 501 is Uninitialized, 503 is Sealed, any other code is Unknown. -/
def specClassify (code : Int) : LifecycleState :=
  if code = 200 then .Ready
  else if code = 429 then .Standby
  else if code = 501 then .Uninitialized
  else if code = 503 then .Sealed
  else .Unknown

/-- The arm of the source's switch that stands for a lifecycle state: the
line it logs (initialised and unsealed, unsealed and in standby, not
initialised, initialised but sealed, unknown) and whether it asks for the
initialisation. -/
def LifecycleState.arm : LifecycleState → Int → String × Bool
  | .Ready, _ => ("Vault is initialised and unsealed. Going dormant...", false)
  | .Standby, _ => ("Vault is unsealed and in standby mode. Going dormant...", false)
  | .Uninitialized, _ => ("Vault is not initialised. Initialising...", true)
  | .Sealed, _ =>
    ("Vault is initialised, but still sealed. Use the tokens received after " ++
      "last initialisation to unseal. Going dormant...", false)
  | .Unknown, code =>
    ("Vault is in an unknown state. Health status code: " ++ decimal code ++
      ". Going dormant...", false)

/-! ## Theorems -/

/-! ### Integer to string conversions -/

/-- The digits `Nat.toDigitsCore` produces end with the digit of the units. -/
theorem toDigitsCore_ends (b : Nat) : ∀ (f n : Nat) (ds : List Char),
    ∃ pre, Nat.toDigitsCore b (f + 1) n ds = pre ++ Nat.digitChar (n % b) :: ds := by
  intro f
  induction f with
  | zero =>
    intro n ds
    by_cases h : n / b = 0
    · exact ⟨[], by simp [Nat.toDigitsCore, h]⟩
    · exact ⟨[], by simp [Nat.toDigitsCore, h]⟩
  | succ f ih =>
    intro n ds
    by_cases h : n / b = 0
    · exact ⟨[], by simp [Nat.toDigitsCore, h]⟩
    · obtain ⟨pre, hpre⟩ := ih (n / b) (Nat.digitChar (n % b) :: ds)
      refine ⟨pre ++ [Nat.digitChar (n / b % b)], ?_⟩
      rw [Nat.toDigitsCore]
      simp only [h, if_false]
      rw [hpre]
      simp

/-- The code point of a decimal digit. -/
theorem digitChar_toNat (m : Nat) (h : m < 10) : (Nat.digitChar m).toNat = 48 + m := by
  interval_cases m <;> rfl

/-- The decimal digits of a natural number end with the digit of its units. -/
theorem decimal_ofNat_ends (n : Nat) :
    ∃ pre, (decimal (Int.ofNat n)).data = pre ++ [Nat.digitChar (n % 10)] := by
  obtain ⟨pre, hpre⟩ := toDigitsCore_ends 10 n n []
  exact ⟨pre, hpre⟩

/-- A one-element list that ends with `b` is `[b]`. -/
theorem singleton_eq_append_singleton {α : Type} (a b : α) (pre : List α)
    (h : [a] = pre ++ [b]) : pre = [] ∧ a = b := by
  cases pre with
  | nil => simpa using h
  | cons x xs =>
    have := congrArg List.length h
    simp at this

/-- The code point of `Char.ofNat n` for a valid `n`. -/
theorem toNat_ofNat_valid (n : Nat) (h : n.isValidChar) : (Char.ofNat n).toNat = n := by
  simp [Char.ofNat, h, Char.toNat, Char.ofNatAux, UInt32.toNat]

/-- The Go conversion `string(c)` is never the decimal rendering of `c`. -/
theorem goString_ne_decimal (c : Int) : goString c ≠ decimal c := by
  intro h
  have hd := congrArg String.data h
  cases c with
  | ofNat n =>
    obtain ⟨pre, hpre⟩ := decimal_ofNat_ends n
    have hm : (Nat.digitChar (n % 10)).toNat = 48 + n % 10 :=
      digitChar_toNat _ (Nat.mod_lt _ (by norm_num))
    by_cases hv : Nat.isValidChar n
    · have hg : (goString (Int.ofNat n)).data = [Char.ofNat n] := by
        simp [goString, hv, String.singleton]
      have hn : n = 48 + n % 10 := by
        have h2 := (singleton_eq_append_singleton _ _ _ ((hg.symm.trans hd).trans hpre)).2
        have h3 := congrArg Char.toNat h2
        rw [toNat_ofNat_valid n hv, hm] at h3
        exact h3
      have hlo : 48 ≤ n := by omega
      have hhi : n ≤ 57 := by omega
      rw [hg] at hd
      clear hpre hm hv hg hn h
      interval_cases n <;> exact absurd hd (by decide)
    · have hg : (goString (Int.ofNat n)).data = [Char.ofNat 65533] := by
        simp [goString, hv, String.singleton]
      have h2 := (singleton_eq_append_singleton _ _ _ ((hg.symm.trans hd).trans hpre)).2
      have h3 := congrArg Char.toNat h2
      rw [hm] at h3
      have : (Char.ofNat 65533).toNat = 65533 := by decide
      omega
  | negSucc m =>
    have hg : (goString (Int.negSucc m)).data = [Char.ofNat 65533] := by
      have : ¬ (0 ≤ Int.negSucc m) := by simp [Int.negSucc_not_nonneg]
      simp [goString, this, String.singleton]
    have hdec : (decimal (Int.negSucc m)).data = '-' :: (Nat.repr (m + 1)).data := rfl
    rw [hg, hdec] at hd
    have := (List.cons.inj hd).1
    exact absurd this (by decide)

/-! ### What each part of a run can do -/

/-- Every event of the poll loop is a probe, a log line, a sleep of the
configured duration or one of four fixed prints. -/
theorem healthLoop_mem (vaultAddr : String) (d : Int) (e : Event) :
    ∀ polls : List PollStep, e ∈ (healthLoop vaultAddr d polls).1 →
      e = .head (vaultAddr ++ "/v1/sys/health") ∨ (∃ line, e = .log line) ∨
      e = .println ["Sleeping"] ∨ e = .sleep d ∨ e = .println ["trying again"] ∨
      e = .println [] ∨ e = .println ["Shutting down..."] := by
  intro polls
  induction polls with
  | nil => intro h; simp [healthLoop] at h
  | cons s rest ih =>
    intro h
    unfold healthLoop at h
    split_ifs at h with hs
    · simp [shuttingDown] at h
      rcases h with h | h <;> simp [h]
    · split at h
      · simp only [List.mem_cons] at h
        rcases h with h | h | h | h | h | h
        · exact Or.inl h
        · exact Or.inr (Or.inl ⟨_, h⟩)
        · simp [h]
        · simp [h]
        · simp [h]
        · exact ih h
      · simp at h
        exact Or.inl h

/-- Every event of `healthCheck` is a probe, a log line, a sleep or one of
four fixed prints. -/
theorem healthCheck_mem (env : Env) (vaultAddr : String) (polls : List PollStep)
    (e : Event) (h : e ∈ (healthCheck env vaultAddr polls).1) :
    e = .head (vaultAddr ++ "/v1/sys/health") ∨ (∃ line, e = .log line) ∨
    e = .println ["Sleeping"] ∨ (∃ d, e = .sleep d) ∨ e = .println ["trying again"] ∨
    e = .println [] ∨ e = .println ["Shutting down..."] := by
  unfold healthCheck at h
  split at h
  · simp at h
  · rcases healthLoop_mem _ _ _ _ h with h | h | h | h | h | h | h
    · exact Or.inl h
    · exact Or.inr (Or.inl h)
    · simp [h]
    · exact Or.inr (Or.inr (Or.inr (Or.inl ⟨_, h⟩)))
    · simp [h]
    · simp [h]
    · simp [h]

/-- Every event of `initVault` is its own call, its PUT request or a log
line. -/
theorem initVault_mem (vaultAddr : String) (x : InitExchange) (e : Event) :
    e ∈ (initVault vaultAddr x).1 →
    e = .initVault vaultAddr ∨ e = .put (vaultAddr ++ "/v1/sys/init") initRequest ∨
    (∃ line, e = .log line) := by
  revert e
  unfold initVault
  rcases x with ⟨errR, errReq, errResp, code, un⟩
  rcases errR with _ | errR <;> rcases errReq with _ | errReq <;>
    rcases errResp with _ | errResp <;> rcases un with un | un <;>
    by_cases hc : code = 200 <;> simp [hc]

/-- The hand-off never calls `initVault`. -/
theorem handoff_no_initVault (w : World) (rootToken : String) :
    (handoff w rootToken).1.countP Event.isInitVault = 0 := by
  unfold handoff
  rcases w with ⟨env, polls, ini, sess, enc, host, wr, op, up⟩
  rcases sess with _ | sess <;> rcases enc with enc | enc <;>
    rcases host with host | host <;> rcases wr with _ | wr <;>
    rcases op with _ | op <;> rcases up with up | up <;>
    simp [Event.isInitVault, List.countP_cons]

/-- Every `kmsClient.Encrypt` call of the hand-off carries the key
identifier built by `fullKeyID` and the bytes of the root token. -/
theorem handoff_encrypt (w : World) (rootToken keyId : String) (plain : Bytes)
    (h : Event.encrypt keyId plain ∈ (handoff w rootToken).1) :
    keyId = fullKeyID w.env.AWS_ACCOUNT_NUMBER w.env.AWS_KMS_KEY_ID w.env.AWS_REGION ∧
    plain = goBytes rootToken := by
  unfold handoff at h
  rcases w with ⟨env, polls, ini, sess, enc, host, wr, op, up⟩
  rcases sess with _ | sess <;> rcases enc with enc | enc <;>
    rcases host with host | host <;> rcases wr with _ | wr <;>
    rcases op with _ | op <;> rcases up with up | up <;>
    simp at h <;> exact h

/-- Once the AWS session exists the hand-off calls `kmsClient.Encrypt` with
the bytes of the root token. -/
theorem handoff_calls_encrypt (w : World) (rootToken : String) (h : w.sessionErr = none) :
    Event.encrypt (fullKeyID w.env.AWS_ACCOUNT_NUMBER w.env.AWS_KMS_KEY_ID w.env.AWS_REGION)
      (goBytes rootToken) ∈ (handoff w rootToken).1 := by
  unfold handoff
  rcases w with ⟨env, polls, ini, sess, enc, host, wr, op, up⟩
  simp only at h
  subst h
  rcases enc with enc | enc <;>
    rcases host with host | host <;> rcases wr with _ | wr <;>
    rcases op with _ | op <;> rcases up with up | up <;>
    simp

/-- The key identifier is the concatenation of its parts. -/
theorem fullKeyID_eq (accountID keyID region : String) :
    fullKeyID accountID keyID region =
      "arn:aws:kms:" ++ region ++ ":" ++ accountID ++ ":key/" ++ keyID := by
  apply String.ext
  simp [fullKeyID, Sprintf, sprintfAux]

/-- The switch asks for the initialisation exactly on code 501. -/
theorem healthSwitch_flag (c : Int) : (healthSwitch c).2 = true ↔ c = 501 := by
  unfold healthSwitch
  split_ifs <;> simp_all

/-- After a code other than 501 the main goroutine logs and goes dormant. -/
theorem afterHealthCheck_dormant (w : World) (vaultAddr : String) (c : Int)
    (h : c ≠ 501) :
    afterHealthCheck w vaultAddr c =
      ([.goHandleSig, .log (healthSwitch c).1], .dormant) := by
  have hf : (healthSwitch c).2 = false := by
    simpa using (healthSwitch_flag c).not.mpr h
  simp [afterHealthCheck, hf]

/-- After code 501, when `initVault` does not return, neither does the run. -/
theorem afterHealthCheck_halt (w : World) (vaultAddr : String) (how : Outcome)
    (hi : (initVault vaultAddr w.init).2 = .halt how) :
    afterHealthCheck w vaultAddr 501 =
      (.goHandleSig :: .log (healthSwitch 501).1 :: .println ["Initialising Vault..."] ::
        (initVault vaultAddr w.init).1, how) := by
  have hf : (healthSwitch 501).2 = true := (healthSwitch_flag 501).mpr rfl
  simp [afterHealthCheck, hf, hi]

/-- After code 501, when `initVault` returns a token, the hand-off follows. -/
theorem afterHealthCheck_ok (w : World) (vaultAddr : String) (rootToken : String)
    (hi : (initVault vaultAddr w.init).2 = .ok rootToken) :
    afterHealthCheck w vaultAddr 501 =
      (.goHandleSig :: .log (healthSwitch 501).1 :: .println ["Initialising Vault..."] ::
        (initVault vaultAddr w.init).1 ++
        .println ["Initialisation complete"] :: (handoff w rootToken).1,
        (handoff w rootToken).2) := by
  have hf : (healthSwitch 501).2 = true := (healthSwitch_flag 501).mpr rfl
  simp [afterHealthCheck, hf, hi]

/-- A run whose `healthCheck` does not return ends there. -/
theorem rootCmdRun_halt (w : World) (polled : List Event) (how : Outcome)
    (h : healthCheck w.env (vaultAddrOf w.env) w.polls = (polled, .halt how)) :
    rootCmdRun w = (polled, how) := by
  simp [rootCmdRun, h]

/-- A run whose `healthCheck` returns a code goes on with the switch. -/
theorem rootCmdRun_ok (w : World) (polled : List Event) (c : Int)
    (h : healthCheck w.env (vaultAddrOf w.env) w.polls = (polled, .ok c)) :
    rootCmdRun w =
      (polled ++ (afterHealthCheck w (vaultAddrOf w.env) c).1,
        (afterHealthCheck w (vaultAddrOf w.env) c).2) := by
  simp [rootCmdRun, h]

/-- The three ways `afterHealthCheck` can go. -/
theorem afterHealthCheck_cases (w : World) (vaultAddr : String) (c : Int) :
    (c ≠ 501 ∧ afterHealthCheck w vaultAddr c =
      ([.goHandleSig, .log (healthSwitch c).1], .dormant)) ∨
    (c = 501 ∧ ∃ how, (initVault vaultAddr w.init).2 = .halt how ∧
      afterHealthCheck w vaultAddr c =
        (.goHandleSig :: .log (healthSwitch 501).1 :: .println ["Initialising Vault..."] ::
          (initVault vaultAddr w.init).1, how)) ∨
    (c = 501 ∧ ∃ rootToken, (initVault vaultAddr w.init).2 = .ok rootToken ∧
      afterHealthCheck w vaultAddr c =
        (.goHandleSig :: .log (healthSwitch 501).1 :: .println ["Initialising Vault..."] ::
          (initVault vaultAddr w.init).1 ++
          .println ["Initialisation complete"] :: (handoff w rootToken).1,
          (handoff w rootToken).2)) := by
  by_cases hc : c = 501
  · subst hc
    rcases hi : (initVault vaultAddr w.init).2 with rootToken | how
    · exact Or.inr (Or.inr ⟨rfl, rootToken, rfl, afterHealthCheck_ok w vaultAddr rootToken hi⟩)
    · exact Or.inr (Or.inl ⟨rfl, how, rfl, afterHealthCheck_halt w vaultAddr how hi⟩)
  · exact Or.inl ⟨hc, afterHealthCheck_dormant w vaultAddr c hc⟩

/-- Every `kmsClient.Encrypt` call made after `healthCheck` carries the key
identifier built by `fullKeyID` from the three environment variables. -/
theorem afterHealthCheck_encrypt (w : World) (vaultAddr : String) (c : Int)
    (keyId : String) (plain : Bytes)
    (h : Event.encrypt keyId plain ∈ (afterHealthCheck w vaultAddr c).1) :
    keyId = fullKeyID w.env.AWS_ACCOUNT_NUMBER w.env.AWS_KMS_KEY_ID w.env.AWS_REGION := by
  rcases afterHealthCheck_cases w vaultAddr c with ⟨_, he⟩ | ⟨_, how, _, he⟩ | ⟨_, tok, _, he⟩
  · rw [he] at h
    simp at h
  · rw [he] at h
    simp only [List.mem_cons] at h
    rcases h with h | h | h | h
    · simp at h
    · simp at h
    · simp at h
    · simpa using initVault_mem _ _ _ h
  · rw [he] at h
    simp only [List.mem_cons, List.mem_append] at h
    rcases h with (h | h | h | h) | h | h
    · simp at h
    · simp at h
    · simp at h
    · simpa using initVault_mem _ _ _ h
    · simp at h
    · exact (handoff_encrypt _ _ _ _ h).1

/-- The two ways a run can go: `healthCheck` does not return, or it returns
a code and the switch follows. -/
theorem rootCmdRun_cases (w : World) :
    (∃ polled how, healthCheck w.env (vaultAddrOf w.env) w.polls = (polled, .halt how) ∧
      rootCmdRun w = (polled, how)) ∨
    (∃ polled c, healthCheck w.env (vaultAddrOf w.env) w.polls = (polled, .ok c) ∧
      rootCmdRun w = (polled ++ (afterHealthCheck w (vaultAddrOf w.env) c).1,
        (afterHealthCheck w (vaultAddrOf w.env) c).2)) := by
  rcases hp : healthCheck w.env (vaultAddrOf w.env) w.polls with ⟨polled, c | how⟩
  · exact Or.inr ⟨polled, c, rfl, rootCmdRun_ok w polled c hp⟩
  · exact Or.inl ⟨polled, how, rfl, rootCmdRun_halt w polled how hp⟩

/-- The events of `healthCheck` hold no `kmsClient.Encrypt` call. -/
theorem healthCheck_no_encrypt (env : Env) (vaultAddr : String) (polls : List PollStep)
    (keyId : String) (plain : Bytes) :
    Event.encrypt keyId plain ∉ (healthCheck env vaultAddr polls).1 := by
  intro h
  simpa using healthCheck_mem env vaultAddr polls _ h

/-- Every `kmsClient.Encrypt` call of a run carries the key identifier
built by `fullKeyID` from the three environment variables. -/
theorem rootCmdRun_encrypt (w : World) (keyId : String) (plain : Bytes)
    (h : Event.encrypt keyId plain ∈ (rootCmdRun w).1) :
    keyId = fullKeyID w.env.AWS_ACCOUNT_NUMBER w.env.AWS_KMS_KEY_ID w.env.AWS_REGION := by
  rcases rootCmdRun_cases w with ⟨polled, how, hp, hr⟩ | ⟨polled, c, hp, hr⟩
  · rw [hr] at h
    have hn := healthCheck_no_encrypt w.env (vaultAddrOf w.env) w.polls keyId plain
    rw [hp] at hn
    exact absurd h hn
  · rw [hr] at h
    have hn := healthCheck_no_encrypt w.env (vaultAddrOf w.env) w.polls keyId plain
    rw [hp] at hn
    simp only [List.mem_append] at h
    rcases h with h | h
    · exact absurd h hn
    · exact afterHealthCheck_encrypt w _ c keyId plain h

/-- On a response with a status other than 200 `initVault` returns the
conversion of the status code. -/
theorem initVault_non200 (vaultAddr : String) (x : InitExchange)
    (hR : x.errR = none) (hReq : x.errReq = none) (hResp : x.errResp = none)
    (hc : x.StatusCode ≠ 200) :
    (initVault vaultAddr x).2 = .ok (goString x.StatusCode) := by
  rcases x with ⟨errR, errReq, errResp, code, un⟩
  simp only at hR hReq hResp hc
  subst hR hReq hResp
  simp [initVault, hc]

/-! ### Counting the calls of `initVault` -/

/-- The poll loop never calls `initVault`. -/
theorem healthCheck_no_initVault (env : Env) (vaultAddr : String) (polls : List PollStep) :
    (healthCheck env vaultAddr polls).1.countP Event.isInitVault = 0 := by
  rw [List.countP_eq_zero]
  intro e he
  rcases healthCheck_mem env vaultAddr polls e he with
    h | ⟨_, h⟩ | h | ⟨_, h⟩ | h | h | h <;> simp [h, Event.isInitVault]

/-- One call of `initVault` is one call of `initVault`. -/
theorem initVault_counts_once (vaultAddr : String) (x : InitExchange) :
    (initVault vaultAddr x).1.countP Event.isInitVault = 1 := by
  unfold initVault
  rcases x with ⟨errR, errReq, errResp, code, un⟩
  rcases errR with _ | errR <;> rcases errReq with _ | errReq <;>
    rcases errResp with _ | errResp <;> rcases un with un | un <;>
    by_cases hc : code = 200 <;> simp [hc, Event.isInitVault, List.countP_cons]

/-- After `healthCheck` the main goroutine calls `initVault` once on code
501 and never otherwise. -/
theorem afterHealthCheck_count (w : World) (vaultAddr : String) (c : Int) :
    (afterHealthCheck w vaultAddr c).1.countP Event.isInitVault =
      if c = 501 then 1 else 0 := by
  rcases afterHealthCheck_cases w vaultAddr c with
    ⟨hc, he⟩ | ⟨hc, how, _, he⟩ | ⟨hc, tok, _, he⟩
  · rw [he]
    simp [hc, Event.isInitVault, List.countP_cons]
  · rw [he]
    simp [hc, Event.isInitVault, List.countP_cons, initVault_counts_once]
  · rw [he]
    simp [hc, Event.isInitVault, List.countP_cons, List.countP_append,
      initVault_counts_once, handoff_no_initVault]

/-- The handler goroutine adds no call of `initVault` to the main goroutine. -/
theorem handleSig_count_le (main : List Event × Outcome) (exitAfter : Nat) :
    (handleSig main exitAfter).1.countP Event.isInitVault ≤
      main.1.countP Event.isInitVault := by
  unfold handleSig
  split_ifs
  · simp only [List.countP_append]
    have h1 : (main.1.take (exitAfter + 1)).countP Event.isInitVault ≤
        main.1.countP Event.isInitVault :=
      (List.take_sublist _ _).countP_le _
    have h2 : shuttingDown.countP Event.isInitVault = 0 := by decide
    omega
  · exact le_refl _

/-! ### The poll loop -/

/-- Within the seconds that fit a `time.Duration` the 64-bit product is the
exact one. -/
theorem wrapInt64_seconds (n : Int) (h : -9223372036 ≤ n ∧ n ≤ 9223372036) :
    wrapInt64 (n * Second) = n * Second := by
  unfold wrapInt64 Second
  omega

/-- Iterations whose probe fails with no signal pending are passed one by
one: each makes one probe and one sleep of the configured duration, and the
loop goes on with the next iteration. -/
theorem healthLoop_failed (vaultAddr : String) (d : Int) (rest : List PollStep) :
    ∀ failed : List PollStep,
      (∀ p ∈ failed, p.sigPending = false ∧ ∃ msg, p.head = .err msg) →
      ∃ pre : List Event,
        healthLoop vaultAddr d (failed ++ rest) =
          (pre ++ (healthLoop vaultAddr d rest).1, (healthLoop vaultAddr d rest).2) ∧
        pre.countP Event.isHead = failed.length ∧
        pre.filterMap Event.sleepNanos = List.replicate failed.length d ∧
        pre.countP Event.isInitVault = 0 := by
  intro failed
  induction failed with
  | nil =>
    intro _
    exact ⟨[], by simp⟩
  | cons p failed ih =>
    intro h
    obtain ⟨hsig, msg, hmsg⟩ := h p (List.mem_cons_self _ _)
    obtain ⟨pre, hpre, hheads, hsleeps, hinit⟩ :=
      ih (fun q hq => h q (List.mem_cons_of_mem _ hq))
    refine ⟨.head (vaultAddr ++ "/v1/sys/health") :: .log msg ::
      .println ["Sleeping"] :: .sleep d :: .println ["trying again"] :: pre, ?_, ?_, ?_, ?_⟩
    · rw [List.cons_append, healthLoop]
      simp [hsig, hmsg, hpre]
    · simp [List.countP_cons, Event.isHead, hheads]
    · simp [List.filterMap_cons, Event.sleepNanos, hsleeps, List.replicate_succ]
    · simp [List.countP_cons, Event.isInitVault, hinit]

/-! ### The hand-off of the root token -/

/-- The hand-off on its own: a success report needs both calls to have
succeeded, a failed encryption stops before the upload, and a failed upload
stops before the report. -/
theorem handoff_report (w : World) (rootToken : String) :
    ((handoff w rootToken).1.any Event.isSuccessReport = true →
      (∃ blob, w.encrypt = .ok blob) ∧ (∃ loc, w.upload = .ok loc) ∧
      (handoff w rootToken).1.any Event.isEncrypt = true ∧
      (handoff w rootToken).1.any Event.isUpload = true) ∧
    (∀ errE, w.encrypt = .error errE →
      (handoff w rootToken).1.any Event.isEncrypt = true →
      (handoff w rootToken).2 = .panic errE ∧
      (handoff w rootToken).1.any Event.isSuccessReport = false ∧
      (handoff w rootToken).1.any Event.isUpload = false) ∧
    (∀ errS3, w.upload = .error errS3 →
      (handoff w rootToken).1.any Event.isUpload = true →
      (handoff w rootToken).2 = .panic errS3 ∧
      (handoff w rootToken).1.any Event.isSuccessReport = false) := by
  unfold handoff
  rcases w with ⟨env, polls, ini, sess, enc, host, wr, op, up⟩
  rcases sess with _ | sess <;> rcases enc with enc | enc <;>
    rcases host with host | host <;> rcases wr with _ | wr <;>
    rcases op with _ | op <;> rcases up with up | up <;>
    simp [Event.isSuccessReport, Event.isEncrypt, Event.isUpload]

/-- No event of `healthCheck` is an encryption call, an upload call or a
success report. -/
theorem healthCheck_quiet (env : Env) (vaultAddr : String) (polls : List PollStep) :
    ∀ e ∈ (healthCheck env vaultAddr polls).1,
      e.isEncrypt = false ∧ e.isUpload = false ∧ e.isSuccessReport = false := by
  intro e he
  rcases healthCheck_mem env vaultAddr polls e he with
    h | ⟨_, h⟩ | h | ⟨_, h⟩ | h | h | h <;>
    simp [h, Event.isEncrypt, Event.isUpload, Event.isSuccessReport]

/-- No event of `initVault` is an encryption call, an upload call or a
success report. -/
theorem initVault_quiet (vaultAddr : String) (x : InitExchange) :
    ∀ e ∈ (initVault vaultAddr x).1,
      e.isEncrypt = false ∧ e.isUpload = false ∧ e.isSuccessReport = false := by
  intro e he
  rcases initVault_mem vaultAddr x e he with h | h | ⟨_, h⟩ <;>
    simp [h, Event.isEncrypt, Event.isUpload, Event.isSuccessReport]

/-- A run is a prefix with no encryption call, no upload call and no success
report, followed either by nothing or by the hand-off of the token that
`initVault` returned. -/
theorem rootCmdRun_split (w : World) :
    ∃ pre : List Event,
      (∀ e ∈ pre, e.isEncrypt = false ∧ e.isUpload = false ∧ e.isSuccessReport = false) ∧
      ((rootCmdRun w).1 = pre ∨
        ∃ rootToken, rootCmdRun w = (pre ++ (handoff w rootToken).1, (handoff w rootToken).2)) := by
  have hq := healthCheck_quiet w.env (vaultAddrOf w.env) w.polls
  have hi := initVault_quiet (vaultAddrOf w.env) w.init
  rcases rootCmdRun_cases w with ⟨polled, how, hp, hr⟩ | ⟨polled, c, hp, hr⟩
  · rw [hp] at hq
    exact ⟨polled, hq, Or.inl (by rw [hr])⟩
  · rw [hp] at hq
    simp only at hq
    rcases afterHealthCheck_cases w (vaultAddrOf w.env) c with
      ⟨_, he⟩ | ⟨_, how, _, he⟩ | ⟨_, tok, _, he⟩
    · refine ⟨polled ++ [.goHandleSig, .log (healthSwitch c).1], ?_, Or.inl (by rw [hr, he])⟩
      intro e he
      simp only [List.mem_append, List.mem_cons, List.mem_singleton, List.not_mem_nil,
        or_false] at he
      rcases he with he | he | he
      · exact hq e he
      · simp [he, Event.isEncrypt, Event.isUpload, Event.isSuccessReport]
      · simp [he, Event.isEncrypt, Event.isUpload, Event.isSuccessReport]
    · refine ⟨polled ++ (.goHandleSig :: .log (healthSwitch 501).1 ::
        .println ["Initialising Vault..."] :: (initVault (vaultAddrOf w.env) w.init).1), ?_,
        Or.inl (by rw [hr, he])⟩
      intro e he
      simp only [List.mem_append, List.mem_cons] at he
      rcases he with he | he | he | he | he
      · exact hq e he
      · simp [he, Event.isEncrypt, Event.isUpload, Event.isSuccessReport]
      · simp [he, Event.isEncrypt, Event.isUpload, Event.isSuccessReport]
      · simp [he, Event.isEncrypt, Event.isUpload, Event.isSuccessReport]
      · exact hi e he
    · refine ⟨polled ++ (.goHandleSig :: .log (healthSwitch 501).1 ::
        .println ["Initialising Vault..."] :: (initVault (vaultAddrOf w.env) w.init).1 ++
        [.println ["Initialisation complete"]]), ?_, Or.inr ⟨tok, ?_⟩⟩
      · intro e he
        simp only [List.mem_append, List.mem_cons, List.mem_singleton, List.not_mem_nil,
          or_false] at he
        rcases he with he | (he | he | he | he) | he
        · exact hq e he
        · simp [he, Event.isEncrypt, Event.isUpload, Event.isSuccessReport]
        · simp [he, Event.isEncrypt, Event.isUpload, Event.isSuccessReport]
        · simp [he, Event.isEncrypt, Event.isUpload, Event.isSuccessReport]
        · exact hi e he
        · simp [he, Event.isEncrypt, Event.isUpload, Event.isSuccessReport]
      · rw [hr, he]
        simp

/-- A prefix without the events `p` looks for does not change `any p`. -/
theorem any_append_quiet (p : Event → Bool) (pre rest : List Event)
    (h : ∀ e ∈ pre, p e = false) : (pre ++ rest).any p = rest.any p := by
  have hpre : pre.any p = false := by
    rw [List.any_eq_false]
    intro e he
    simp [h e he]
  simp [List.any_append, hpre]

/-! ### Shutdown -/

/-- A run whose `healthCheck` does not return never starts the handler
goroutine. -/
theorem rootCmdRunWithSignal_halt (w : World) (handler : Option Nat)
    (polled : List Event) (how : Outcome)
    (h : healthCheck w.env (vaultAddrOf w.env) w.polls = (polled, .halt how)) :
    rootCmdRunWithSignal w handler = (polled, how) := by
  simp [rootCmdRunWithSignal, h]

/-- A run whose `healthCheck` returns a code that the handler goroutine then
cuts short. -/
theorem rootCmdRunWithSignal_raced (w : World) (exitAfter : Nat)
    (polled : List Event) (c : Int)
    (h : healthCheck w.env (vaultAddrOf w.env) w.polls = (polled, .ok c)) :
    rootCmdRunWithSignal w (some exitAfter) =
      (polled ++ (handleSig (afterHealthCheck w (vaultAddrOf w.env) c) exitAfter).1,
        (handleSig (afterHealthCheck w (vaultAddrOf w.env) c) exitAfter).2) := by
  simp [rootCmdRunWithSignal, h]

/-! ## The properties of the specification -/

/-- C1: for every health code the switch of the root command takes the arm
of the state the table gives (Ready for 200, Standby for 429, Uninitialized
for 501, Sealed for 503, Unknown for every other integer), no other state's
arm fits, and the state depends on the code alone. -/
theorem healthSwitch_classifies (c : Int) :
    healthSwitch c = (specClassify c).arm c ∧
    (∀ s : LifecycleState, healthSwitch c = s.arm c → s = specClassify c) ∧
    (specClassify c = .Ready ↔ c = 200) ∧
    (specClassify c = .Standby ↔ c = 429) ∧
    (specClassify c = .Uninitialized ↔ c = 501) ∧
    (specClassify c = .Sealed ↔ c = 503) ∧
    (specClassify c = .Unknown ↔ (c ≠ 200 ∧ c ≠ 429 ∧ c ≠ 501 ∧ c ≠ 503)) := by
  refine ⟨?_, ?_, ?_, ?_, ?_, ?_, ?_⟩
  · unfold healthSwitch specClassify
    split_ifs <;> rfl
  · intro s hs
    unfold healthSwitch at hs
    unfold specClassify
    split_ifs at hs ⊢ <;> cases s <;>
      simp [LifecycleState.arm, String.ext_iff] at hs ⊢
  all_goals
    unfold specClassify
    split_ifs <;> simp_all

/-- C2: a run calls `initVault` once when `healthCheck` returned 501 and
never otherwise, so at most once whatever the number of poll iterations; a
run cut short by the signal handler calls it at most once too, and only
after a 501. -/
theorem initVault_iff_uninitialized (w : World) :
    ((rootCmdRun w).1.countP Event.isInitVault =
      if (healthCheck w.env (vaultAddrOf w.env) w.polls).2 = .ok 501 then 1 else 0) ∧
    (∀ c, (healthCheck w.env (vaultAddrOf w.env) w.polls).2 = .ok c →
      ((rootCmdRun w).1.countP Event.isInitVault = 1 ↔ c = 501)) ∧
    (rootCmdRun w).1.countP Event.isInitVault ≤ 1 ∧
    (∀ handler,
      (rootCmdRunWithSignal w handler).1.countP Event.isInitVault ≤ 1 ∧
      (0 < (rootCmdRunWithSignal w handler).1.countP Event.isInitVault →
        (healthCheck w.env (vaultAddrOf w.env) w.polls).2 = .ok 501)) := by
  have hn := healthCheck_no_initVault w.env (vaultAddrOf w.env) w.polls
  have hcount : (rootCmdRun w).1.countP Event.isInitVault =
      if (healthCheck w.env (vaultAddrOf w.env) w.polls).2 = .ok 501 then 1 else 0 := by
    rcases rootCmdRun_cases w with ⟨polled, how, hp, hr⟩ | ⟨polled, c, hp, hr⟩
    · rw [hr, hp]
      rw [hp] at hn
      simpa using hn
    · rw [hr, hp]
      rw [hp] at hn
      simp only [List.countP_append, afterHealthCheck_count]
      simp only at hn
      rw [hn]
      by_cases hc : c = 501 <;> simp [hc]
  refine ⟨hcount, ?_, ?_, ?_⟩
  · intro c hc
    rw [hcount, hc]
    by_cases h : c = 501 <;> simp [h]
  · rw [hcount]
    split_ifs <;> simp
  · intro handler
    have hle : (rootCmdRunWithSignal w handler).1.countP Event.isInitVault ≤
        if (healthCheck w.env (vaultAddrOf w.env) w.polls).2 = .ok 501 then 1 else 0 := by
      unfold rootCmdRunWithSignal
      rcases hp : healthCheck w.env (vaultAddrOf w.env) w.polls with ⟨polled, c | how⟩
      · rw [hp] at hn
        simp only at hn
        have hc := afterHealthCheck_count w (vaultAddrOf w.env) c
        have hif : (if (Ret.ok c : Ret Int) = .ok 501 then 1 else 0) =
            if c = 501 then 1 else 0 := by
          by_cases h : c = 501 <;> simp [h]
        rcases handler with _ | exitAfter
        · simp only [List.countP_append, hn, hc, hif]
          omega
        · have hs := handleSig_count_le (afterHealthCheck w (vaultAddrOf w.env) c) exitAfter
          simp only [List.countP_append, hn, hif]
          rw [hc] at hs
          omega
      · rw [hp] at hn
        simpa using hn
    constructor
    · split_ifs at hle <;> omega
    · intro hpos
      split_ifs at hle with h
      · exact h
      · omega

/-- C3, the code at an init endpoint that answers 500 after a 501 health
code: `initVault` returns the character U+01F4 instead of ending the run, and
the run goes on to encrypt its two bytes, upload the ciphertext and report
success, ending dormant with no fatal error. -/
theorem init_refused_reaches_upload :
    (initVault (vaultAddrOf sampleEnv) (initRefused 500)).2 = .ok (goString 500) ∧
    goBytes (goString 500) = [199, 180] ∧
    Event.encrypt "arn:aws:kms:eu-west-1:123456789012:key/key-1" [199, 180] ∈
      (rootCmdRun (sampleWorld [⟨false, .resp 501⟩] (initRefused 500))).1 ∧
    Event.upload "encrypted-tokens" "host_token" [1, 2, 3] ∈
      (rootCmdRun (sampleWorld [⟨false, .resp 501⟩] (initRefused 500))).1 ∧
    (rootCmdRun (sampleWorld [⟨false, .resp 501⟩] (initRefused 500))).1.any
      Event.isSuccessReport = true ∧
    (rootCmdRun (sampleWorld [⟨false, .resp 501⟩] (initRefused 500))).2 = .dormant := by
  decide

/-- C4, the claim as stated fails: a 200 response whose parsed body has an
empty root token makes `initVault` return the empty string, with no fatal
error. -/
theorem initVault_empty_token_returns :
    (initVault "http://127.0.0.1:8200" (initAnswer "")).2 = .ok "" ∧
    ¬ ∃ msg, (initVault "http://127.0.0.1:8200" (initAnswer "")).2 = .halt (.panic msg) := by
  have h : (initVault "http://127.0.0.1:8200" (initAnswer "")).2 = .ok "" := by
    simp [initVault, initAnswer]
  refine ⟨h, ?_⟩
  rintro ⟨msg, hm⟩
  rw [h] at hm
  cases hm

/-- C4 as amended: on a 200 response that was received and read, `initVault`
ends in a fatal error exactly when the body fails to parse, and when the body
parses it returns the parsed root token as it is, empty or not. -/
theorem initVault_ok_response (vaultAddr : String) (x : InitExchange)
    (hR : x.errR = none) (hReq : x.errReq = none) (hResp : x.errResp = none)
    (hc : x.StatusCode = 200) :
    ((∃ msg, (initVault vaultAddr x).2 = .halt (.panic msg)) ↔
      ∃ errUn, x.unmarshal = .error errUn) ∧
    (∀ r, x.unmarshal = .ok r → (initVault vaultAddr x).2 = .ok r.RootToken) := by
  rcases x with ⟨errR, errReq, errResp, code, un⟩
  simp only at hR hReq hResp hc
  subst hR hReq hResp hc
  rcases un with un | un <;> simp [initVault]

/-- C4 as amended, at a 200 response carrying the token abc123. -/
theorem initVault_ok_response_witness :
    ((∃ msg, (initVault "http://127.0.0.1:8200" (initAnswer "abc123")).2 =
        .halt (.panic msg)) ↔
      ∃ errUn, (initAnswer "abc123").unmarshal = .error errUn) ∧
    (∀ r, (initAnswer "abc123").unmarshal = .ok r →
      (initVault "http://127.0.0.1:8200" (initAnswer "abc123")).2 = .ok r.RootToken) :=
  initVault_ok_response "http://127.0.0.1:8200" (initAnswer "abc123") rfl rfl rfl rfl

/-- C5: with no signal pending, `k` probes that fail at transport level
followed by a probe answered with code `c` make `healthCheck` return `c` with
no fatal error after exactly `k + 1` probes and exactly `k` sleeps, each of
the configured duration: that of `n` seconds, where `n` is 10 when
CHECK_INTERVAL is unset and the integer CHECK_INTERVAL spells otherwise; the
duration is `n` seconds exactly for every `n` whose seconds fit a
`time.Duration`. -/
theorem healthCheck_retries (env : Env) (vaultAddr : String) (n : Int)
    (failed : List PollStep) (c : Int) (later : List PollStep)
    (hcfg : (env.CHECK_INTERVAL = "" ∧ n = 10) ∨
      (env.CHECK_INTERVAL ≠ "" ∧ Atoi env.CHECK_INTERVAL = .ok n))
    (hfailed : ∀ p ∈ failed, p.sigPending = false ∧ ∃ msg, p.head = .err msg) :
    (healthCheck env vaultAddr (failed ++ ⟨false, .resp c⟩ :: later)).2 = .ok c ∧
    (healthCheck env vaultAddr (failed ++ ⟨false, .resp c⟩ :: later)).1.countP
      Event.isHead = failed.length + 1 ∧
    (healthCheck env vaultAddr (failed ++ ⟨false, .resp c⟩ :: later)).1.filterMap
      Event.sleepNanos = List.replicate failed.length (wrapInt64 (n * Second)) ∧
    ((-9223372036 ≤ n ∧ n ≤ 9223372036) → wrapInt64 (n * Second) = n * Second) := by
  have hparsed : Atoi (checkInterval env) = .ok n := by
    rcases hcfg with ⟨hunset, hn⟩ | ⟨hset, hn⟩
    · have h10 : Atoi "10" = .ok 10 := rfl
      simp only [checkInterval, hunset, if_true]
      rw [h10, hn]
    · simp only [checkInterval, hset, if_false]
      exact hn
  obtain ⟨pre, hpre, hheads, hsleeps, _⟩ :=
    healthLoop_failed vaultAddr (wrapInt64 (n * Second)) (⟨false, .resp c⟩ :: later)
      failed hfailed
  have hlast : healthLoop vaultAddr (wrapInt64 (n * Second)) (⟨false, .resp c⟩ :: later) =
      ([.head (vaultAddr ++ "/v1/sys/health")], .ok c) := by
    simp [healthLoop]
  have hrun : healthCheck env vaultAddr (failed ++ ⟨false, .resp c⟩ :: later) =
      (pre ++ [.head (vaultAddr ++ "/v1/sys/health")], .ok c) := by
    simp only [healthCheck, hparsed]
    rw [hpre, hlast]
  rw [hrun]
  refine ⟨rfl, ?_, ?_, wrapInt64_seconds n⟩
  · simp [List.countP_append, hheads, Event.isHead, List.countP_cons]
  · simp [List.filterMap_append, hsleeps, Event.sleepNanos]

/-- C5 at three refused connections followed by a 200: four probes, result
200, and three sleeps, of ten seconds each with the interval unset and of
one second each with CHECK_INTERVAL set to 1. -/
theorem healthCheck_retries_witness :
    ((healthCheck sampleEnv "http://127.0.0.1:8200"
        (List.replicate 3 ⟨false, .err "connection refused"⟩ ++
          [⟨false, .resp 200⟩])).2 = .ok 200 ∧
      (healthCheck sampleEnv "http://127.0.0.1:8200"
        (List.replicate 3 ⟨false, .err "connection refused"⟩ ++
          [⟨false, .resp 200⟩])).1.countP Event.isHead = 4 ∧
      (healthCheck sampleEnv "http://127.0.0.1:8200"
        (List.replicate 3 ⟨false, .err "connection refused"⟩ ++
          [⟨false, .resp 200⟩])).1.filterMap Event.sleepNanos =
        [10000000000, 10000000000, 10000000000]) ∧
    ((healthCheck everySecondEnv "http://127.0.0.1:8200"
        (List.replicate 3 ⟨false, .err "connection refused"⟩ ++
          [⟨false, .resp 200⟩])).2 = .ok 200 ∧
      (healthCheck everySecondEnv "http://127.0.0.1:8200"
        (List.replicate 3 ⟨false, .err "connection refused"⟩ ++
          [⟨false, .resp 200⟩])).1.countP Event.isHead = 4 ∧
      (healthCheck everySecondEnv "http://127.0.0.1:8200"
        (List.replicate 3 ⟨false, .err "connection refused"⟩ ++
          [⟨false, .resp 200⟩])).1.filterMap Event.sleepNanos =
        [1000000000, 1000000000, 1000000000]) :=
  have hrefused : ∀ p ∈ List.replicate 3 (⟨false, .err "connection refused"⟩ : PollStep),
      p.sigPending = false ∧ ∃ msg, p.head = .err msg := by
    intro p hp
    rw [List.eq_of_mem_replicate hp]
    exact ⟨rfl, _, rfl⟩
  have hunset := healthCheck_retries sampleEnv "http://127.0.0.1:8200" 10
    (List.replicate 3 ⟨false, .err "connection refused"⟩) 200 []
    (Or.inl ⟨rfl, rfl⟩) hrefused
  have hset := healthCheck_retries everySecondEnv "http://127.0.0.1:8200" 1
    (List.replicate 3 ⟨false, .err "connection refused"⟩) 200 []
    (Or.inr ⟨by decide, rfl⟩) hrefused
  ⟨⟨hunset.1, hunset.2.1, hunset.2.2.1⟩, ⟨hset.1, hset.2.1, hset.2.2.1⟩⟩

/-- C6: in a run the success report is printed only if the encryption call
and the upload call were both made and both returned without error; when the
encryption call returns an error the run panics with it, makes no upload call
and prints no success report; when the upload call returns an error the run
panics with it and prints no success report. -/
theorem success_report_needs_both (w : World) :
    ((rootCmdRun w).1.any Event.isSuccessReport = true →
      (∃ blob, w.encrypt = .ok blob) ∧ (∃ loc, w.upload = .ok loc) ∧
      (rootCmdRun w).1.any Event.isEncrypt = true ∧
      (rootCmdRun w).1.any Event.isUpload = true) ∧
    (∀ errE, w.encrypt = .error errE →
      (rootCmdRun w).1.any Event.isEncrypt = true →
      (rootCmdRun w).2 = .panic errE ∧
      (rootCmdRun w).2.exitCode = some 2 ∧
      (rootCmdRun w).1.any Event.isSuccessReport = false ∧
      (rootCmdRun w).1.any Event.isUpload = false) ∧
    (∀ errS3, w.upload = .error errS3 →
      (rootCmdRun w).1.any Event.isUpload = true →
      (rootCmdRun w).2 = .panic errS3 ∧
      (rootCmdRun w).2.exitCode = some 2 ∧
      (rootCmdRun w).1.any Event.isSuccessReport = false) := by
  obtain ⟨pre, hpre, hrun | ⟨tok, hrun⟩⟩ := rootCmdRun_split w
  · have h1 : (rootCmdRun w).1.any Event.isSuccessReport = false := by
      rw [hrun, List.any_eq_false]
      intro e he
      simp [(hpre e he).2.2]
    have h2 : (rootCmdRun w).1.any Event.isEncrypt = false := by
      rw [hrun, List.any_eq_false]
      intro e he
      simp [(hpre e he).1]
    have h3 : (rootCmdRun w).1.any Event.isUpload = false := by
      rw [hrun, List.any_eq_false]
      intro e he
      simp [(hpre e he).2.1]
    simp [h1, h2, h3]
  · have h1 := any_append_quiet Event.isSuccessReport pre (handoff w tok).1
      (fun e he => (hpre e he).2.2)
    have h2 := any_append_quiet Event.isEncrypt pre (handoff w tok).1
      (fun e he => (hpre e he).1)
    have h3 := any_append_quiet Event.isUpload pre (handoff w tok).1
      (fun e he => (hpre e he).2.1)
    obtain ⟨ha, hb, hc⟩ := handoff_report w tok
    rw [hrun]
    simp only [h1, h2, h3]
    refine ⟨ha, ?_, ?_⟩
    · intro errE hE hcall
      obtain ⟨hp, hs, hu⟩ := hb errE hE hcall
      exact ⟨hp, by rw [hp]; rfl, hs, hu⟩
    · intro errS3 hS hcall
      obtain ⟨hp, hs⟩ := hc errS3 hS hcall
      exact ⟨hp, by rw [hp]; rfl, hs⟩

/-- The success report is reachable: after a 501 and a 200 init response with
token abc123, with AWS working, the run encrypts the token and prints the
success report. -/
theorem success_report_when_both_succeed :
    (rootCmdRun (sampleWorld [⟨false, .resp 501⟩] (initAnswer "abc123"))).1.any
      Event.isSuccessReport = true ∧
    Event.encrypt "arn:aws:kms:eu-west-1:123456789012:key/key-1" (goBytes "abc123") ∈
      (rootCmdRun (sampleWorld [⟨false, .resp 501⟩] (initAnswer "abc123"))).1 := by
  decide

/-- C7, the claim as stated fails: no signal is pending at the first check,
the signal arrives while the first probe is in flight, the probe is answered
501, and the handler goroutine exits the process only after the main
goroutine has called `initVault` and sent the init request. The process
exits with code 0, yet `initVault` was invoked. -/
theorem signal_in_flight_still_initialises :
    (rootCmdRunWithSignal (sampleWorld [⟨false, .resp 501⟩] (initAnswer "abc123"))
      (some 4)).2 = .exit 0 ∧
    Event.initVault "http://127.0.0.1:8200" ∈
      (rootCmdRunWithSignal (sampleWorld [⟨false, .resp 501⟩] (initAnswer "abc123"))
        (some 4)).1 ∧
    Event.put "http://127.0.0.1:8200/v1/sys/init" initRequest ∈
      (rootCmdRunWithSignal (sampleWorld [⟨false, .resp 501⟩] (initAnswer "abc123"))
        (some 4)).1 ∧
    (rootCmdRunWithSignal (sampleWorld [⟨false, .resp 501⟩] (initAnswer "abc123"))
      (some 4)).1.countP Event.isInitVault ≠ 0 := by
  decide

/-- C7 as amended: with a well-formed interval, a signal that is pending
when the poll loop runs its check at the top of an iteration (every earlier
probe having failed) makes the process exit with code 0 from inside the loop,
after as many probes as there were failures and with no call of `initVault`,
whatever the next probe would have returned; a signal that is not yet
pending at that check and arrives while the probe is in flight does not stop
the loop when the probe is answered, the loop returns the code, and for a
code other than 501 the handler then exits the process with code 0 and
`initVault` is never called. -/
theorem shutdown_seen_at_loop_check (w : World) (handler : Option Nat) (n : Int)
    (failed : List PollStep) (s : PollStep) (later : List PollStep)
    (hcfg : Atoi (checkInterval w.env) = .ok n)
    (hpolls : w.polls = failed ++ s :: later)
    (hfailed : ∀ p ∈ failed, p.sigPending = false ∧ ∃ msg, p.head = .err msg) :
    (s.sigPending = true →
      (rootCmdRunWithSignal w handler).2 = .exit 0 ∧
      (rootCmdRunWithSignal w handler).1.countP Event.isInitVault = 0 ∧
      (rootCmdRunWithSignal w handler).1.countP Event.isHead = failed.length) ∧
    (s.sigPending = false → ∀ c, s.head = .resp c →
      (healthCheck w.env (vaultAddrOf w.env) w.polls).2 = .ok c ∧
      (c ≠ 501 → ∀ exitAfter, handler = some exitAfter →
        (rootCmdRunWithSignal w handler).2 = .exit 0 ∧
        (rootCmdRunWithSignal w handler).1.countP Event.isInitVault = 0)) := by
  obtain ⟨pre, hpre, hheads, _, hinit⟩ :=
    healthLoop_failed (vaultAddrOf w.env) (wrapInt64 (n * Second)) (s :: later) failed hfailed
  have hrun : healthCheck w.env (vaultAddrOf w.env) w.polls =
      (pre ++ (healthLoop (vaultAddrOf w.env) (wrapInt64 (n * Second)) (s :: later)).1,
        (healthLoop (vaultAddrOf w.env) (wrapInt64 (n * Second)) (s :: later)).2) := by
    simp only [healthCheck, hcfg, hpolls]
    rw [hpre]
  constructor
  · intro hs
    have hlast : healthLoop (vaultAddrOf w.env) (wrapInt64 (n * Second)) (s :: later) =
        (shuttingDown, .halt (.exit 0)) := by
      simp [healthLoop, hs]
    rw [hlast] at hrun
    rw [rootCmdRunWithSignal_halt w handler _ _ hrun]
    refine ⟨rfl, ?_, ?_⟩
    · simp [List.countP_append, hinit, shuttingDown, Event.isInitVault, List.countP_cons]
    · simp [List.countP_append, hheads, shuttingDown, Event.isHead, List.countP_cons]
  · intro hs c hc
    have hlast : healthLoop (vaultAddrOf w.env) (wrapInt64 (n * Second)) (s :: later) =
        ([.head (vaultAddrOf w.env ++ "/v1/sys/health")], .ok c) := by
      simp [healthLoop, hs, hc]
    rw [hlast] at hrun
    refine ⟨by rw [hrun], ?_⟩
    intro hne exitAfter hh
    subst hh
    rw [rootCmdRunWithSignal_raced w exitAfter _ c hrun,
      afterHealthCheck_dormant w _ c hne]
    have hcut : handleSig ([.goHandleSig, .log (healthSwitch c).1], .dormant) exitAfter =
        ([.goHandleSig, .log (healthSwitch c).1].take (exitAfter + 1) ++ shuttingDown,
          .exit 0) := by
      simp [handleSig]
    rw [hcut]
    refine ⟨rfl, ?_⟩
    have htake : ([Event.goHandleSig, Event.log (healthSwitch c).1].take
        (exitAfter + 1)).countP Event.isInitVault ≤
        [Event.goHandleSig, Event.log (healthSwitch c).1].countP Event.isInitVault :=
      (List.take_sublist _ _).countP_le _
    have hzero : [Event.goHandleSig, Event.log (healthSwitch c).1].countP
        Event.isInitVault = 0 := by
      simp [Event.isInitVault, List.countP_cons]
    have hshut : shuttingDown.countP Event.isInitVault = 0 := by decide
    simp only [List.countP_append, hinit, hshut]
    simp only [List.countP_cons, List.countP_nil, Event.isHead, Event.isInitVault] at *
    omega

/-- C7 as amended, at a signal that arrives while the first probe is in
flight, the probe then failing: the second check sees it and the process
exits with code 0 after one probe, without the call of `initVault` that the
501 of the second probe would have caused. -/
theorem shutdown_seen_at_loop_check_witness :
    (rootCmdRunWithSignal
      (sampleWorld [⟨false, .err "connection refused"⟩, ⟨true, .resp 501⟩]
        (initAnswer "abc123")) (some 4)).2 = .exit 0 ∧
    (rootCmdRunWithSignal
      (sampleWorld [⟨false, .err "connection refused"⟩, ⟨true, .resp 501⟩]
        (initAnswer "abc123")) (some 4)).1.countP Event.isInitVault = 0 ∧
    (rootCmdRunWithSignal
      (sampleWorld [⟨false, .err "connection refused"⟩, ⟨true, .resp 501⟩]
        (initAnswer "abc123")) (some 4)).1.countP Event.isHead = 1 :=
  (shutdown_seen_at_loop_check
    (sampleWorld [⟨false, .err "connection refused"⟩, ⟨true, .resp 501⟩]
      (initAnswer "abc123"))
    (some 4) 10 [⟨false, .err "connection refused"⟩] ⟨true, .resp 501⟩ [] rfl rfl
    (by
      intro p hp
      rw [List.mem_singleton.mp hp]
      exact ⟨rfl, _, rfl⟩)).1 rfl

/-- C8: whatever the address and whatever the service answers, the one PUT
request `initVault` sends goes to the init endpoint with recovery_shares 1,
recovery_threshold 1, secret_shares 5 and secret_threshold 3, and each
threshold is at most its number of shares. -/
theorem initVault_request (vaultAddr : String) (x : InitExchange) :
    (∀ url body, Event.put url body ∈ (initVault vaultAddr x).1 →
      url = vaultAddr ++ "/v1/sys/init" ∧
      body = { RecoveryShares := 1, RecoveryThreshold := 1,
               SecretShares := 5, SecretThreshold := 3 }) ∧
    (x.errR = none →
      Event.put (vaultAddr ++ "/v1/sys/init")
        { RecoveryShares := 1, RecoveryThreshold := 1,
          SecretShares := 5, SecretThreshold := 3 } ∈ (initVault vaultAddr x).1) ∧
    initRequest.RecoveryThreshold ≤ initRequest.RecoveryShares ∧
    initRequest.SecretThreshold ≤ initRequest.SecretShares := by
  refine ⟨?_, ?_, by decide, by decide⟩
  · intro url body h
    have hm := initVault_mem vaultAddr x _ h
    simpa [initRequest] using hm
  · intro h
    unfold initVault
    rcases x with ⟨errR, errReq, errResp, code, un⟩
    simp only at h
    subst h
    rcases errReq with _ | errReq <;> rcases errResp with _ | errResp <;>
      rcases un with un | un <;> by_cases hc : code = 200 <;> simp [hc, initRequest]

/-- C9: the key identifier is the text arn:aws:kms: followed by the region, a
colon, the account, the text :key/ and the key, and every encryption call of
a run is given the identifier composed this way from the three environment
variables. -/
theorem fullKeyID_composition (accountID keyID region : String) :
    fullKeyID accountID keyID region =
      "arn:aws:kms:" ++ region ++ ":" ++ accountID ++ ":key/" ++ keyID ∧
    ∀ (w : World) (keyId : String) (plain : Bytes),
      Event.encrypt keyId plain ∈ (rootCmdRun w).1 →
      keyId = "arn:aws:kms:" ++ w.env.AWS_REGION ++ ":" ++ w.env.AWS_ACCOUNT_NUMBER ++
        ":key/" ++ w.env.AWS_KMS_KEY_ID := by
  refine ⟨fullKeyID_eq accountID keyID region, ?_⟩
  intro w keyId plain h
  rw [← fullKeyID_eq]
  exact rootCmdRun_encrypt w keyId plain h

/-- C10: on an init response with a status code other than 200 `initVault`
returns normally the Go conversion of that integer to a string, which is the
UTF-8 encoding of the code point and never the decimal digits, and a run
that reaches the encryption passes the bytes of that string as plaintext. -/
theorem initVault_non200_returns (vaultAddr : String) (x : InitExchange)
    (hR : x.errR = none) (hReq : x.errReq = none) (hResp : x.errResp = none)
    (hc : x.StatusCode ≠ 200) :
    (initVault vaultAddr x).2 = .ok (goString x.StatusCode) ∧
    goString x.StatusCode ≠ decimal x.StatusCode ∧
    ((0 ≤ x.StatusCode ∧ Nat.isValidChar x.StatusCode.toNat) →
      goBytes (goString x.StatusCode) =
        String.utf8EncodeChar (Char.ofNat x.StatusCode.toNat)) ∧
    (∀ (w : World) (polled : List Event), w.init = x →
      healthCheck w.env (vaultAddrOf w.env) w.polls = (polled, .ok 501) →
      w.sessionErr = none →
      Event.encrypt
        (fullKeyID w.env.AWS_ACCOUNT_NUMBER w.env.AWS_KMS_KEY_ID w.env.AWS_REGION)
        (goBytes (goString x.StatusCode)) ∈ (rootCmdRun w).1) := by
  refine ⟨initVault_non200 vaultAddr x hR hReq hResp hc, goString_ne_decimal _, ?_, ?_⟩
  · intro hv
    simp [goBytes, goString, hv, String.singleton]
  · intro w polled hw hp hs
    subst hw
    have hi := initVault_non200 (vaultAddrOf w.env) w.init hR hReq hResp hc
    rw [rootCmdRun_ok w polled 501 hp, afterHealthCheck_ok w _ _ hi]
    simp only [List.mem_append, List.mem_cons]
    exact Or.inr (Or.inr (Or.inr (handoff_calls_encrypt w _ hs)))

/-- C10 at status 500: `initVault` returns the one character U+01F4, and the
run encrypts its two UTF-8 bytes. -/
theorem initVault_non200_returns_witness :
    (initVault "http://127.0.0.1:8200" (initRefused 500)).2 = .ok (goString 500) ∧
    goString 500 ≠ decimal 500 ∧
    ((0 ≤ (500 : Int) ∧ Nat.isValidChar (500 : Int).toNat) →
      goBytes (goString 500) = String.utf8EncodeChar (Char.ofNat (500 : Int).toNat)) ∧
    (∀ (w : World) (polled : List Event), w.init = initRefused 500 →
      healthCheck w.env (vaultAddrOf w.env) w.polls = (polled, .ok 501) →
      w.sessionErr = none →
      Event.encrypt
        (fullKeyID w.env.AWS_ACCOUNT_NUMBER w.env.AWS_KMS_KEY_ID w.env.AWS_REGION)
        (goBytes (goString 500)) ∈ (rootCmdRun w).1) :=
  initVault_non200_returns "http://127.0.0.1:8200" (initRefused 500) rfl rfl rfl (by decide)

end VaultInit
